import Mathlib

/-!
Verification of the gradient-descent optimizers of rusty-machine
(`src/learning/optim/grad_desc.rs`).

Embedding conventions:
* `f64` scalars are embedded as exact rationals `ℚ`; the update rules of
  `grad_desc.rs` are field-generic elementwise arithmetic, and the claims
  under study are structural (iteration counts, traversal order, update
  formulas, dimensions), not rounding facts.
* A parameter vector is a `List ℚ`.
* `Matrix<f64>` is embedded as a structure holding its list of rows; its
  `select_rows` operation returns `Option` — `none` models the panic of an
  out-of-bounds row selection.
* The `Optimizable` trait is a record holding the `compute_grad` capability.
* Each `optimize` method also has a `Traced` variant that additionally
  records, in order, the batches (or row indices) passed to `compute_grad`;
  a lemma ties its value component back to the untraced function.
-/

namespace RustyMachine

/-- Modelled from the spec: vectors support elementwise subtraction (the
underlying `linalg::vector` module is an external collaborator,
"standard dense numeric containers supporting elementwise add/subtract/scale"). -/
def vecSub (a b : List ℚ) : List ℚ := List.zipWith (fun x y => x - y) a b

/-- Modelled from the spec: elementwise vector addition. -/
def vecAdd (a b : List ℚ) : List ℚ := List.zipWith (fun x y => x + y) a b

/-- Modelled from the spec: scaling of a vector by a scalar on the right,
`Vector * c`. -/
def vecScale (a : List ℚ) (c : ℚ) : List ℚ := a.map (fun x => x * c)

/-- Modelled from the spec: a data/target batch is a read-only tabular
structure, rows = observations; we keep the list of its rows. -/
structure Matrix where
  rowsData : List (List ℚ)
deriving DecidableEq, Repr

/-- Modelled from the spec: the row-count query of a batch. -/
def Matrix.rows (m : Matrix) : ℕ := m.rowsData.length

/-- Modelled from the spec: row selection by an index list, preserving order;
an out-of-bounds index (a panic in the Rust implementation) is `none`. -/
def Matrix.select_rows (m : Matrix) (idxs : List ℕ) : Option Matrix :=
  (idxs.mapM (fun i => m.rowsData[i]?)).map Matrix.mk

/-- The `Optimizable` trait: a model reports, at a parameter vector and for a
data/target batch, a cost and a gradient (`compute_grad`). -/
structure Optimizable (Data Target : Type) where
  compute_grad : List ℚ → Data → Target → ℚ × List ℚ

/-- `GradientDesc`: batch gradient descent, fields `alpha` and `iters`
as in the source. -/
structure GradientDesc where
  alpha : ℚ
  iters : ℕ

/-- `Default for GradientDesc`: the constants of the source's
`default()` body. -/
def GradientDesc.default : GradientDesc :=
  { alpha := 3/10, iters := 100 }

/-- `GradientDesc::new`. -/
def GradientDesc.new (alpha : ℚ) (iters : ℕ) : GradientDesc :=
  { alpha := alpha, iters := iters }

/-- The `for _ in 0..self.iters` loop of `GradientDesc::optimize`:
each round replaces the working vector `v` by
`v - compute_grad(v, data, outputs).1 * alpha`. -/
def gdLoop {D T : Type} (model : Optimizable D T) (alpha : ℚ) (data : D)
    (outputs : T) : ℕ → List ℚ → List ℚ
  | 0, v => v
  | n + 1, v =>
      gdLoop model alpha data outputs n
        (vecSub v (vecScale (model.compute_grad v data outputs).2 alpha))

/-- `GradientDesc::optimize`. -/
def GradientDesc.optimize {D T : Type} (self : GradientDesc)
    (model : Optimizable D T) (start : List ℚ) (data : D) (outputs : T) :
    List ℚ :=
  gdLoop model self.alpha data outputs self.iters start

/-- `GradientDesc::optimize`, additionally recording the batch passed to
each `compute_grad` call, in call order. -/
def gdLoopTraced {D T : Type} (model : Optimizable D T) (alpha : ℚ) (data : D)
    (outputs : T) : ℕ → List ℚ → List ℚ × List (D × T)
  | 0, v => (v, [])
  | n + 1, v =>
      let r := gdLoopTraced model alpha data outputs n
        (vecSub v (vecScale (model.compute_grad v data outputs).2 alpha))
      (r.1, (data, outputs) :: r.2)

/-- Traced form of `GradientDesc.optimize`. -/
def GradientDesc.optimizeTraced {D T : Type} (self : GradientDesc)
    (model : Optimizable D T) (start : List ℚ) (data : D) (outputs : T) :
    List ℚ × List (D × T) :=
  gdLoopTraced model self.alpha data outputs self.iters start

/-- `StochasticGD`: stochastic gradient descent with momentum, fields
`alpha` (momentum), `mu` (step), `iters` (passes) as in the source. -/
structure StochasticGD where
  alpha : ℚ
  mu : ℚ
  iters : ℕ

/-- `Default for StochasticGD`: the constants of the source's
`default()` body. -/
def StochasticGD.default : StochasticGD :=
  { alpha := 1/10, mu := 1/10, iters := 20 }

/-- `StochasticGD::new`. -/
def StochasticGD.new (alpha mu : ℚ) (iters : ℕ) : StochasticGD :=
  { alpha := alpha, mu := mu, iters := iters }

/-- The body of the inner `for i in 1..data.rows()` loop of
`StochasticGD::optimize`, acting on the state
`(delta_w, optimizing_val)` at row index `i`:
`delta_w = grad * mu + delta_w * alpha` then
`optimizing_val = optimizing_val - delta_w * mu`. -/
def sgdStep (self : StochasticGD) (model : Optimizable Matrix Matrix)
    (data outputs : Matrix) (st : List ℚ × List ℚ) (i : ℕ) :
    Option (List ℚ × List ℚ) := do
  let di ← data.select_rows [i]
  let oi ← outputs.select_rows [i]
  let g := (model.compute_grad st.2 di oi).2
  let dw := vecAdd (vecScale g self.mu) (vecScale st.1 self.alpha)
  pure (dw, vecSub st.2 (vecScale dw self.mu))

/-- One pass of the outer loop: the inner loop runs over
`i in 1..data.rows()`, i.e. the index list `List.range' 1 (data.rows - 1)`. -/
def sgdPass (self : StochasticGD) (model : Optimizable Matrix Matrix)
    (data outputs : Matrix) (st : List ℚ × List ℚ) :
    Option (List ℚ × List ℚ) :=
  (List.range' 1 (data.rows - 1)).foldlM (sgdStep self model data outputs) st

/-- The outer `for _ in 0..self.iters` loop of `StochasticGD::optimize`. -/
def sgdPasses (self : StochasticGD) (model : Optimizable Matrix Matrix)
    (data outputs : Matrix) : ℕ → List ℚ × List ℚ →
    Option (List ℚ × List ℚ)
  | 0, st => some st
  | n + 1, st => do
      let st2 ← sgdPass self model data outputs st
      sgdPasses self model data outputs n st2

/-- `StochasticGD::optimize`: bootstrap on row 0
(`delta_w = grad * alpha`, `optimizing_val = start - delta_w * mu`),
then `iters` passes of the inner loop; `none` models a panic from an
out-of-bounds row selection. -/
def StochasticGD.optimize (self : StochasticGD)
    (model : Optimizable Matrix Matrix) (start : List ℚ)
    (data outputs : Matrix) : Option (List ℚ) := do
  let d0 ← data.select_rows [0]
  let o0 ← outputs.select_rows [0]
  let g := (model.compute_grad start d0 o0).2
  let dw := vecScale g self.alpha
  let w := vecSub start (vecScale dw self.mu)
  let fin ← sgdPasses self model data outputs self.iters (dw, w)
  pure fin.2

/-- `sgdStep` additionally appending the row index it passed to
`compute_grad` to a trace carried in the state. -/
def sgdStepTraced (self : StochasticGD) (model : Optimizable Matrix Matrix)
    (data outputs : Matrix) (st : (List ℚ × List ℚ) × List ℕ) (i : ℕ) :
    Option ((List ℚ × List ℚ) × List ℕ) := do
  let st2 ← sgdStep self model data outputs st.1 i
  pure (st2, st.2 ++ [i])

/-- Traced form of `sgdPass`. -/
def sgdPassTraced (self : StochasticGD) (model : Optimizable Matrix Matrix)
    (data outputs : Matrix) (st : (List ℚ × List ℚ) × List ℕ) :
    Option ((List ℚ × List ℚ) × List ℕ) :=
  (List.range' 1 (data.rows - 1)).foldlM
    (sgdStepTraced self model data outputs) st

/-- Traced form of `sgdPasses`. -/
def sgdPassesTraced (self : StochasticGD) (model : Optimizable Matrix Matrix)
    (data outputs : Matrix) : ℕ → (List ℚ × List ℚ) × List ℕ →
    Option ((List ℚ × List ℚ) × List ℕ)
  | 0, st => some st
  | n + 1, st => do
      let st2 ← sgdPassTraced self model data outputs st
      sgdPassesTraced self model data outputs n st2

/-- `StochasticGD::optimize`, additionally recording the row index passed to
each `compute_grad` call, in call order (the bootstrap records row 0). -/
def StochasticGD.optimizeTraced (self : StochasticGD)
    (model : Optimizable Matrix Matrix) (start : List ℚ)
    (data outputs : Matrix) : Option (List ℚ × List ℕ) := do
  let d0 ← data.select_rows [0]
  let o0 ← outputs.select_rows [0]
  let g := (model.compute_grad start d0 o0).2
  let dw := vecScale g self.alpha
  let w := vecSub start (vecScale dw self.mu)
  let fin ← sgdPassesTraced self model data outputs self.iters ((dw, w), [0])
  pure (fin.1.2, fin.2)

/-- Iterate a function `n` times (spec-side loop combinator). -/
def iterateN {α : Type} (f : α → α) : ℕ → α → α
  | 0, a => a
  | n + 1, a => iterateN f n (f a)

/-- Modelled from the spec: "compute gradient ... using only row `i`" — the
spec presumes the row exists, so row access here is total (§4.4 step 2a). -/
def specRow (m : Matrix) (i : ℕ) : Matrix :=
  ⟨[m.rowsData.getD i []]⟩

/-- Modelled from the spec (§4.3): full-batch gradient descent exactly as the
spec words it — repeat `iters` times
`working = working - alpha * gradient` with the gradient taken over the
entire data/target set. -/
def specGradientDesc {D T : Type} (alpha : ℚ) (iters : ℕ)
    (model : Optimizable D T) (start : List ℚ) (data : D) (outputs : T) :
    List ℚ :=
  iterateN
    (fun w => vecSub w
      ((model.compute_grad w data outputs).2.map (fun x => alpha * x)))
    iters start

/-- Modelled from the spec (§4.4 step 2): the body at row `i` —
`delta_w = gradient * mu + delta_w * alpha`,
`working = working - delta_w * mu`. -/
def specSGDStep (alpha mu : ℚ) (model : Optimizable Matrix Matrix)
    (data outputs : Matrix) (st : List ℚ × List ℚ) (i : ℕ) :
    List ℚ × List ℚ :=
  let g := (model.compute_grad st.2 (specRow data i) (specRow outputs i)).2
  let dw := vecAdd (vecScale g mu) (vecScale st.1 alpha)
  (dw, vecSub st.2 (vecScale dw mu))

/-- Modelled from the spec (§4.4): bootstrap on row 0 with
`delta_w = gradient * alpha` and `working = start - delta_w * mu`, then for
each of `iters` passes each row index from 1 to rowcount−1 ascending, with
`delta_w` carried across rows and passes; returns the final working vector. -/
def specStochasticGD (alpha mu : ℚ) (iters : ℕ)
    (model : Optimizable Matrix Matrix) (start : List ℚ)
    (data outputs : Matrix) : List ℚ :=
  let g0 := (model.compute_grad start (specRow data 0) (specRow outputs 0)).2
  let dw0 := vecScale g0 alpha
  let w0 := vecSub start (vecScale dw0 mu)
  (iterateN
    (fun st => (List.range' 1 (data.rows - 1)).foldl
      (specSGDStep alpha mu model data outputs) st)
    iters (dw0, w0)).2

/-- Modelled from the spec (§8, momentum accumulation scenario): plain
per-row gradient descent with a fixed step size, visiting the rows of the
given schedule in order and subtracting `step * gradient(row)` each visit. -/
def specPerRowDescent (step : ℚ) (model : Optimizable Matrix Matrix)
    (data outputs : Matrix) (schedule : List ℕ) (start : List ℚ) : List ℚ :=
  schedule.foldl
    (fun w i => vecSub w
      (vecScale (model.compute_grad w (specRow data i) (specRow outputs i)).2
        step))
    start

/-- A concrete one-feature model for concrete runs: the gradient at `v` adds
the leading entry of the batch's first row to every coordinate (so its
gradient always has the dimension of `v`). -/
def mdlAffine : Optimizable Matrix Matrix :=
  ⟨fun v d _ => (0, v.map (fun x => x + (d.rowsData.getD 0 []).getD 0 0))⟩

/-- A concrete two-row, one-feature data set. -/
def dat2 : Matrix := ⟨[[5], [7]]⟩

/-- A concrete three-row, one-feature data set. -/
def dat3 : Matrix := ⟨[[5], [7], [11]]⟩

/-! ### Helper lemmas -/

theorem vecScale_length (a : List ℚ) (c : ℚ) :
    (vecScale a c).length = a.length := by
  simp [vecScale]

theorem vecSub_length (a b : List ℚ) :
    (vecSub a b).length = min a.length b.length := by
  simp [vecSub]

theorem vecAdd_length (a b : List ℚ) :
    (vecAdd a b).length = min a.length b.length := by
  simp [vecAdd]

theorem Matrix.rows_select_single (m : Matrix) (i : ℕ) (h : i < m.rows) :
    m.select_rows [i] = some (specRow m i) := by
  unfold Matrix.rows at h
  rw [Matrix.select_rows, List.mapM_cons, List.mapM_nil]
  simp [List.getElem?_eq_getElem h, specRow, List.getD_eq_getElem _ _ h]

theorem Matrix.rows_select_single_none (m : Matrix) (i : ℕ)
    (h : m.rows ≤ i) : m.select_rows [i] = none := by
  unfold Matrix.rows at h
  rw [Matrix.select_rows, List.mapM_cons, List.mapM_nil]
  simp [List.getElem?_eq_none h]

/-- If an elementwise combination's second operand is pointwise annihilated,
the combination is the identity (lengths matching). -/
theorem zipWith_map_zero (op : ℚ → ℚ → ℚ) (hop : ∀ x, op x 0 = x)
    (f : ℚ → ℚ) (hf : ∀ x, f x = 0) :
    ∀ a b : List ℚ, b.length = a.length →
      List.zipWith op a (b.map f) = a := by
  intro a
  induction a with
  | nil => intro b _; simp
  | cons x xs ih =>
      intro b hb
      cases b with
      | nil => simp at hb
      | cons y ys =>
          simp only [List.map_cons, List.zipWith_cons_cons, hf, hop]
          simp only [List.length_cons, Nat.succ.injEq] at hb
          rw [ih ys hb]

theorem gdLoop_eq_spec {D T : Type} (model : Optimizable D T) (alpha : ℚ)
    (data : D) (outputs : T) :
    ∀ (n : ℕ) (v : List ℚ),
      gdLoop model alpha data outputs n v =
        iterateN
          (fun w => vecSub w
            ((model.compute_grad w data outputs).2.map (fun x => alpha * x)))
          n v := by
  intro n
  induction n with
  | zero => intro v; rfl
  | succ k ih =>
      intro v
      show gdLoop model alpha data outputs k _ = iterateN _ k _
      rw [ih]
      have hmap : ∀ g : List ℚ,
          vecScale g alpha = g.map (fun x => alpha * x) := by
        intro g
        simp [vecScale, mul_comm]
      rw [hmap]

theorem gdLoopTraced_eq {D T : Type} (model : Optimizable D T) (alpha : ℚ)
    (data : D) (outputs : T) :
    ∀ (n : ℕ) (v : List ℚ),
      gdLoopTraced model alpha data outputs n v =
        (gdLoop model alpha data outputs n v,
         List.replicate n (data, outputs)) := by
  intro n
  induction n with
  | zero => intro v; rfl
  | succ k ih =>
      intro v
      show (let r := gdLoopTraced model alpha data outputs k _
            (r.1, (data, outputs) :: r.2)) = _
      rw [ih]
      rfl

theorem gdLoop_length {D T : Type} (model : Optimizable D T) (alpha : ℚ)
    (data : D) (outputs : T)
    (hg : ∀ (v : List ℚ) (d : D) (o : T),
      ((model.compute_grad v d o).2).length = v.length) :
    ∀ (n : ℕ) (v : List ℚ),
      (gdLoop model alpha data outputs n v).length = v.length := by
  intro n
  induction n with
  | zero => intro v; rfl
  | succ k ih =>
      intro v
      show (gdLoop model alpha data outputs k _).length = _
      rw [ih, vecSub_length, vecScale_length, hg, Nat.min_self]

theorem innerIdx_valid (data outputs : Matrix) (h1 : 1 ≤ data.rows)
    (h2 : data.rows ≤ outputs.rows) :
    ∀ i ∈ List.range' 1 (data.rows - 1), i < data.rows ∧ i < outputs.rows := by
  intro i hi
  rw [List.mem_range'_1] at hi
  omega

theorem sgdStep_eq_spec (self : StochasticGD)
    (model : Optimizable Matrix Matrix) (data outputs : Matrix)
    (st : List ℚ × List ℚ) (i : ℕ) (h1 : i < data.rows)
    (h2 : i < outputs.rows) :
    sgdStep self model data outputs st i =
      some (specSGDStep self.alpha self.mu model data outputs st i) := by
  rw [sgdStep, Matrix.rows_select_single data i h1,
    Matrix.rows_select_single outputs i h2]
  rfl

theorem foldlM_sgdStep_eq_spec (self : StochasticGD)
    (model : Optimizable Matrix Matrix) (data outputs : Matrix) :
    ∀ l : List ℕ, (∀ i ∈ l, i < data.rows ∧ i < outputs.rows) →
      ∀ st, l.foldlM (sgdStep self model data outputs) st =
        some (l.foldl (specSGDStep self.alpha self.mu model data outputs)
          st) := by
  intro l
  induction l with
  | nil => intro _ st; rfl
  | cons i t ih =>
      intro hl st
      have hi := hl i (List.mem_cons_self i t)
      rw [List.foldlM_cons, sgdStep_eq_spec self model data outputs st i
        hi.1 hi.2]
      show t.foldlM (sgdStep self model data outputs) _ = _
      rw [ih (fun j hj => hl j (List.mem_cons_of_mem i hj)), List.foldl_cons]

theorem sgdPasses_eq_spec (self : StochasticGD)
    (model : Optimizable Matrix Matrix) (data outputs : Matrix)
    (h1 : 1 ≤ data.rows) (h2 : data.rows ≤ outputs.rows) :
    ∀ (n : ℕ) (st : List ℚ × List ℚ),
      sgdPasses self model data outputs n st =
        some (iterateN
          (fun s => (List.range' 1 (data.rows - 1)).foldl
            (specSGDStep self.alpha self.mu model data outputs) s)
          n st) := by
  intro n
  induction n with
  | zero => intro st; rfl
  | succ k ih =>
      intro st
      show (do
        let st2 ← sgdPass self model data outputs st
        sgdPasses self model data outputs k st2) = _
      rw [sgdPass, foldlM_sgdStep_eq_spec self model data outputs _
        (innerIdx_valid data outputs h1 h2)]
      show sgdPasses self model data outputs k _ = _
      rw [ih]
      rfl

theorem foldlM_sgdStepTraced (self : StochasticGD)
    (model : Optimizable Matrix Matrix) (data outputs : Matrix) :
    ∀ (l : List ℕ) (st : List ℚ × List ℚ) (tr : List ℕ),
      l.foldlM (sgdStepTraced self model data outputs) (st, tr) =
        (l.foldlM (sgdStep self model data outputs) st).map
          (fun s2 => (s2, tr ++ l)) := by
  intro l
  induction l with
  | nil => intro st tr; simp
  | cons i t ih =>
      intro st tr
      rw [List.foldlM_cons, List.foldlM_cons]
      cases h : sgdStep self model data outputs st i with
      | none => simp [sgdStepTraced, h]
      | some st2 =>
          have hstep : sgdStepTraced self model data outputs (st, tr) i =
              some (st2, tr ++ [i]) := by
            simp [sgdStepTraced, h]
          simp [hstep, h, ih st2 (tr ++ [i])]

theorem sgdPassesTraced_eq (self : StochasticGD)
    (model : Optimizable Matrix Matrix) (data outputs : Matrix) :
    ∀ (n : ℕ) (st : List ℚ × List ℚ) (tr : List ℕ),
      sgdPassesTraced self model data outputs n (st, tr) =
        (sgdPasses self model data outputs n st).map
          (fun s2 => (s2, tr ++ List.flatten (List.replicate n
            (List.range' 1 (data.rows - 1))))) := by
  intro n
  induction n with
  | zero => intro st tr; simp [sgdPassesTraced, sgdPasses]
  | succ k ih =>
      intro st tr
      show (do
        let st2 ← sgdPassTraced self model data outputs (st, tr)
        sgdPassesTraced self model data outputs k st2) =
        (do
          let s2 ← sgdPass self model data outputs st
          sgdPasses self model data outputs k s2).map _
      rw [sgdPassTraced, foldlM_sgdStepTraced, sgdPass]
      cases h : (List.range' 1 (data.rows - 1)).foldlM
          (sgdStep self model data outputs) st with
      | none => simp [h]
      | some st2 =>
          simp [h, ih st2]
          cases hp : sgdPasses self model data outputs k st2 with
          | none => simp [hp]
          | some fin => simp [hp, List.replicate_succ]

/-- The traced run is the plain run paired with the full row-index trace:
the bootstrap's row 0 followed by `iters` copies of `1, ..., rows - 1`. -/
theorem optimizeTraced_eq (self : StochasticGD)
    (model : Optimizable Matrix Matrix) (start : List ℚ)
    (data outputs : Matrix) :
    self.optimizeTraced model start data outputs =
      (self.optimize model start data outputs).map
        (fun v => (v, 0 :: List.flatten (List.replicate self.iters
          (List.range' 1 (data.rows - 1))))) := by
  rw [StochasticGD.optimizeTraced, StochasticGD.optimize]
  cases hd : data.select_rows [0] with
  | none => simp
  | some d0 =>
      simp only [Option.bind_eq_bind, Option.some_bind]
      cases ho : outputs.select_rows [0] with
      | none => simp
      | some o0 =>
          simp only [Option.bind_eq_bind, Option.some_bind]
          rw [sgdPassesTraced_eq]
          cases hp : sgdPasses self model data outputs self.iters _ with
          | none => simp [hp]
          | some fin => simp [hp]

theorem sgdPasses_eq_foldlM (self : StochasticGD)
    (model : Optimizable Matrix Matrix) (data outputs : Matrix) :
    ∀ (n : ℕ) (st : List ℚ × List ℚ),
      sgdPasses self model data outputs n st =
        (List.flatten (List.replicate n
          (List.range' 1 (data.rows - 1)))).foldlM
          (sgdStep self model data outputs) st := by
  intro n
  induction n with
  | zero => intro st; simp [sgdPasses]
  | succ k ih =>
      intro st
      show (do
        let st2 ← sgdPass self model data outputs st
        sgdPasses self model data outputs k st2) = _
      simp only [List.replicate_succ, List.flatten_cons, List.foldlM_append,
        sgdPass, ih]

theorem sgdStep_length (self : StochasticGD)
    (model : Optimizable Matrix Matrix) (data outputs : Matrix)
    (hg : ∀ (v : List ℚ) (d o : Matrix),
      ((model.compute_grad v d o).2).length = v.length)
    (st : List ℚ × List ℚ) (i : ℕ) (st2 : List ℚ × List ℚ)
    (h : sgdStep self model data outputs st i = some st2)
    (L : ℕ) (h1 : st.1.length = L) (h2 : st.2.length = L) :
    st2.1.length = L ∧ st2.2.length = L := by
  rw [sgdStep] at h
  cases hd : data.select_rows [i] with
  | none => rw [hd] at h; simp at h
  | some di =>
      rw [hd] at h
      cases ho : outputs.select_rows [i] with
      | none => rw [ho] at h; simp at h
      | some oi =>
          rw [ho] at h
          simp only [Option.bind_eq_bind, Option.some_bind, Option.pure_def,
            Option.some.injEq] at h
          subst h
          refine ⟨?_, ?_⟩
          · rw [vecAdd_length, vecScale_length, vecScale_length, hg, h1, h2,
              Nat.min_self]
          · rw [vecSub_length, vecScale_length, vecAdd_length,
              vecScale_length, vecScale_length, hg, h1, h2, Nat.min_self,
              Nat.min_self]

theorem foldlM_sgdStep_length (self : StochasticGD)
    (model : Optimizable Matrix Matrix) (data outputs : Matrix)
    (hg : ∀ (v : List ℚ) (d o : Matrix),
      ((model.compute_grad v d o).2).length = v.length) (L : ℕ) :
    ∀ (l : List ℕ) (st st2 : List ℚ × List ℚ),
      st.1.length = L → st.2.length = L →
      l.foldlM (sgdStep self model data outputs) st = some st2 →
      st2.1.length = L ∧ st2.2.length = L := by
  intro l
  induction l with
  | nil =>
      intro st st2 h1 h2 h
      simp only [List.foldlM_nil, Option.pure_def, Option.some.injEq] at h
      subst h
      exact ⟨h1, h2⟩
  | cons i t ih =>
      intro st st2 h1 h2 h
      rw [List.foldlM_cons] at h
      cases hs : sgdStep self model data outputs st i with
      | none => rw [hs] at h; simp at h
      | some st3 =>
          rw [hs] at h
          simp only [Option.bind_eq_bind, Option.some_bind] at h
          have hl := sgdStep_length self model data outputs hg st i st3 hs L
            h1 h2
          exact ih st3 st2 hl.1 hl.2 h

theorem sgd_optimize_length (self : StochasticGD)
    (model : Optimizable Matrix Matrix) (start : List ℚ)
    (data outputs : Matrix)
    (hg : ∀ (v : List ℚ) (d o : Matrix),
      ((model.compute_grad v d o).2).length = v.length)
    (out : List ℚ) (h : self.optimize model start data outputs = some out) :
    out.length = start.length := by
  rw [StochasticGD.optimize] at h
  cases hd : data.select_rows [0] with
  | none => rw [hd] at h; simp at h
  | some d0 =>
      rw [hd] at h
      cases ho : outputs.select_rows [0] with
      | none => rw [ho] at h; simp at h
      | some o0 =>
          rw [ho] at h
          simp only [Option.bind_eq_bind, Option.some_bind] at h
          cases hp : sgdPasses self model data outputs self.iters
              (vecScale (model.compute_grad start d0 o0).2 self.alpha,
               vecSub start
                 (vecScale
                   (vecScale (model.compute_grad start d0 o0).2 self.alpha)
                   self.mu)) with
          | none => rw [hp] at h; simp at h
          | some fin =>
              rw [hp] at h
              simp only [Option.some_bind, Option.pure_def,
                Option.some.injEq] at h
              subst h
              rw [sgdPasses_eq_foldlM] at hp
              refine (foldlM_sgdStep_length self model data outputs hg
                start.length _ _ fin ?_ ?_ hp).2
              · rw [vecScale_length, hg]
              · rw [vecSub_length, vecScale_length, vecScale_length, hg,
                  Nat.min_self]

theorem sgdStep_alpha0 (self : StochasticGD) (h0 : self.alpha = 0)
    (model : Optimizable Matrix Matrix) (data outputs : Matrix)
    (hg : ∀ (v : List ℚ) (d o : Matrix),
      ((model.compute_grad v d o).2).length = v.length)
    (i : ℕ) (hi1 : i < data.rows) (hi2 : i < outputs.rows)
    (dw w : List ℚ) (hlen : dw.length = w.length) :
    sgdStep self model data outputs (dw, w) i =
      some
        (vecScale
          (model.compute_grad w (specRow data i) (specRow outputs i)).2
          self.mu,
         vecSub w
          (vecScale
            (model.compute_grad w (specRow data i) (specRow outputs i)).2
            (self.mu * self.mu))) := by
  rw [sgdStep, Matrix.rows_select_single data i hi1,
    Matrix.rows_select_single outputs i hi2]
  simp only [Option.bind_eq_bind, Option.some_bind, Option.pure_def,
    Option.some.injEq]
  have hdw : vecAdd
      (vecScale (model.compute_grad w (specRow data i) (specRow outputs i)).2
        self.mu)
      (vecScale dw self.alpha) =
      vecScale (model.compute_grad w (specRow data i) (specRow outputs i)).2
        self.mu := by
    rw [h0]
    refine zipWith_map_zero _ (fun x => add_zero x) _ (fun x => mul_zero x)
      _ dw ?_
    rw [vecScale_length, hg, hlen]
  rw [hdw]
  have hsq : vecScale
      (vecScale (model.compute_grad w (specRow data i) (specRow outputs i)).2
        self.mu) self.mu =
      vecScale (model.compute_grad w (specRow data i) (specRow outputs i)).2
        (self.mu * self.mu) := by
    simp [vecScale, List.map_map, Function.comp, mul_assoc]
  rw [hsq]

theorem foldlM_sgdStep_alpha0 (self : StochasticGD) (h0 : self.alpha = 0)
    (model : Optimizable Matrix Matrix) (data outputs : Matrix)
    (hg : ∀ (v : List ℚ) (d o : Matrix),
      ((model.compute_grad v d o).2).length = v.length) :
    ∀ l : List ℕ, (∀ i ∈ l, i < data.rows ∧ i < outputs.rows) →
      ∀ dw w : List ℚ, dw.length = w.length →
        ∃ dwF : List ℚ,
          l.foldlM (sgdStep self model data outputs) (dw, w) =
            some (dwF,
              specPerRowDescent (self.mu * self.mu) model data outputs l w) := by
  intro l
  induction l with
  | nil =>
      intro _ dw w _
      exact ⟨dw, rfl⟩
  | cons i t ih =>
      intro hl dw w hlen
      have hi := hl i (List.mem_cons_self i t)
      rw [List.foldlM_cons,
        sgdStep_alpha0 self h0 model data outputs hg i hi.1 hi.2 dw w hlen]
      simp only [Option.bind_eq_bind, Option.some_bind]
      have hlen2 : (vecScale
          (model.compute_grad w (specRow data i) (specRow outputs i)).2
          self.mu).length =
          (vecSub w
            (vecScale
              (model.compute_grad w (specRow data i) (specRow outputs i)).2
              (self.mu * self.mu))).length := by
        rw [vecScale_length, hg, vecSub_length, vecScale_length, hg,
          Nat.min_self]
      obtain ⟨dwF, hF⟩ := ih (fun j hj => hl j (List.mem_cons_of_mem i hj))
        _ _ hlen2
      exact ⟨dwF, by rw [hF]; rfl⟩

theorem flatten_replicate_nil {α : Type} :
    ∀ n : ℕ, List.flatten (List.replicate n ([] : List α)) = [] := by
  intro n
  induction n with
  | zero => rfl
  | succ k ih => simp [List.replicate_succ, ih]

theorem length_flatten_replicate {α : Type} (l : List α) :
    ∀ n : ℕ, (List.flatten (List.replicate n l)).length = n * l.length := by
  intro n
  induction n with
  | zero => simp
  | succ k ih =>
      simp only [List.replicate_succ, List.flatten_cons, List.length_append,
        ih]
      ring

/-- For valid inputs, `StochasticGD::optimize` succeeds and computes exactly
the spec's §4.4 algorithm. -/
theorem optimize_eq_spec (self : StochasticGD)
    (model : Optimizable Matrix Matrix) (start : List ℚ)
    (data outputs : Matrix) (h1 : 1 ≤ data.rows)
    (h2 : data.rows ≤ outputs.rows) :
    self.optimize model start data outputs =
      some (specStochasticGD self.alpha self.mu self.iters model start data
        outputs) := by
  rw [StochasticGD.optimize, Matrix.rows_select_single data 0 (by omega),
    Matrix.rows_select_single outputs 0 (by omega)]
  simp only [Option.bind_eq_bind, Option.some_bind]
  rw [sgdPasses_eq_spec self model data outputs h1 h2]
  simp only [Option.some_bind]
  rfl

/-! ### Claims -/

/-- C1: for every model, start vector, and data/targets with at least one row
(and targets covering the data's row indices, per the data model's 1:1 row
correspondence), `StochasticGD.optimize` follows exactly the spec's
algorithm: bootstrap on row 0 with `delta_w = gradient * alpha` and
`working = start - delta_w * mu`; then for each of `iters` passes and each
row `i` from 1 to rows−1 ascending, `delta_w = gradient * mu + delta_w *
alpha` and `working = working - delta_w * mu`, with `delta_w` carried across
rows and passes; it returns the final working vector. -/
theorem claim_C1 (self : StochasticGD) (model : Optimizable Matrix Matrix)
    (start : List ℚ) (data outputs : Matrix) (h1 : 1 ≤ data.rows)
    (h2 : data.rows ≤ outputs.rows) :
    self.optimize model start data outputs =
      some (specStochasticGD self.alpha self.mu self.iters model start data
        outputs) :=
  optimize_eq_spec self model start data outputs h1 h2

theorem claim_C1_witness :
    1 ≤ dat2.rows ∧
    (StochasticGD.new (1/2) (1/3) 2).optimize mdlAffine [1] dat2 dat2 =
      some (specStochasticGD (1/2) (1/3) 2 mdlAffine [1] dat2 dat2) ∧
    (StochasticGD.new (1/2) (1/3) 2).optimize mdlAffine [1] dat2 dat2 =
      some [-827/324] :=
  ⟨by decide,
   claim_C1 (StochasticGD.new (1/2) (1/3) 2) mdlAffine [1] dat2 dat2
     (by decide) (by decide),
   by norm_num [StochasticGD.new, StochasticGD.optimize, sgdPasses, sgdPass,
     sgdStep, dat2, mdlAffine, vecSub, vecAdd, vecScale, Matrix.select_rows,
     Matrix.rows, specRow, List.range', List.mapM.loop]⟩

/-- C2: for every model, start vector, data and targets,
`GradientDesc.optimize` starts from `start` and repeats exactly `iters`
times `working = working - alpha * gradient`, the gradient taken over the
entire data/target set, returning the final working vector. -/
theorem claim_C2 {D T : Type} (self : GradientDesc) (model : Optimizable D T)
    (start : List ℚ) (data : D) (outputs : T) :
    self.optimize model start data outputs =
      specGradientDesc self.alpha self.iters model start data outputs := by
  rw [GradientDesc.optimize, gdLoop_eq_spec, specGradientDesc]

/-- C3: for a `StochasticGD` with `iters = 2` on a data set of 3 rows, the
row indices passed to the model's gradient computation across the whole
`optimize` call are exactly `[0, 1, 2, 1, 2]`: row 0 once in the bootstrap,
then rows 1..2 ascending in each of the two passes. -/
theorem claim_C3 (self : StochasticGD) (model : Optimizable Matrix Matrix)
    (start : List ℚ) (data outputs : Matrix) (hi : self.iters = 2)
    (h3 : data.rows = 3) (h4 : outputs.rows = 3) :
    (self.optimizeTraced model start data outputs).map Prod.snd =
      some [0, 1, 2, 1, 2] := by
  rw [optimizeTraced_eq,
    optimize_eq_spec self model start data outputs (by omega) (by omega),
    hi, h3]
  rfl

theorem claim_C3_witness :
    (StochasticGD.new (1/2) (1/3) 2).iters = 2 ∧ dat3.rows = 3 ∧
    ((StochasticGD.new (1/2) (1/3) 2).optimizeTraced mdlAffine [1] dat3
        dat3).map Prod.snd = some [0, 1, 2, 1, 2] :=
  ⟨rfl, rfl,
   claim_C3 (StochasticGD.new (1/2) (1/3) 2) mdlAffine [1] dat3 dat3 rfl rfl
     rfl⟩

/-- C4: `GradientDesc.optimize` calls the gradient computation exactly
`iters` times, each call on the full data and target set, and
`StochasticGD.optimize` on data with at least one row calls it exactly
`1 + iters * (rows - 1)` times. -/
theorem claim_C4 {D T : Type} (gd : GradientDesc) (mgd : Optimizable D T)
    (s1 : List ℚ) (d1 : D) (o1 : T) (sgd : StochasticGD)
    (msgd : Optimizable Matrix Matrix) (s2 : List ℚ) (data outputs : Matrix)
    (h1 : 1 ≤ data.rows) (h2 : data.rows ≤ outputs.rows) :
    ((gd.optimizeTraced mgd s1 d1 o1).2 =
        List.replicate gd.iters (d1, o1) ∧
      (gd.optimizeTraced mgd s1 d1 o1).2.length = gd.iters) ∧
    ∃ v tr, sgd.optimizeTraced msgd s2 data outputs = some (v, tr) ∧
      tr.length = 1 + sgd.iters * (data.rows - 1) := by
  constructor
  · constructor
    · rw [GradientDesc.optimizeTraced, gdLoopTraced_eq]
    · rw [GradientDesc.optimizeTraced, gdLoopTraced_eq]
      exact List.length_replicate _ _
  · refine ⟨specStochasticGD sgd.alpha sgd.mu sgd.iters msgd s2 data outputs,
      0 :: List.flatten (List.replicate sgd.iters
        (List.range' 1 (data.rows - 1))), ?_, ?_⟩
    · rw [optimizeTraced_eq,
        optimize_eq_spec sgd msgd s2 data outputs h1 h2]
      rfl
    · rw [List.length_cons, length_flatten_replicate, List.length_range']
      ring

theorem claim_C4_witness :
    (((GradientDesc.new (1/2) 2).optimizeTraced mdlAffine [1] dat2 dat2).2 =
        List.replicate 2 (dat2, dat2) ∧
      ((GradientDesc.new (1/2) 2).optimizeTraced mdlAffine [1] dat2
          dat2).2.length = 2) ∧
    ((StochasticGD.new (1/2) (1/3) 2).optimizeTraced mdlAffine [1] dat2
        dat2).map (fun p => p.2.length) = some (1 + 2 * (dat2.rows - 1)) := by
  obtain ⟨hgd, v, tr, hvt, hlen⟩ := claim_C4 (GradientDesc.new (1/2) 2)
    mdlAffine [1] dat2 dat2 (StochasticGD.new (1/2) (1/3) 2) mdlAffine [1]
    dat2 dat2 (by decide) (by decide)
  refine ⟨hgd, ?_⟩
  rw [hvt]
  exact congrArg some hlen

/-- C5: with `alpha = 0` and a model whose gradients match the parameter
dimension, `StochasticGD.optimize` computes plain per-row gradient descent
with step size `mu * mu` per visited row (each step subtracting `mu²` times
the current row's gradient), over the traversal rows 1..rows−1 repeated
`iters` times. -/
theorem claim_C5 (self : StochasticGD) (model : Optimizable Matrix Matrix)
    (start : List ℚ) (data outputs : Matrix)
    (hg : ∀ (v : List ℚ) (d o : Matrix),
      ((model.compute_grad v d o).2).length = v.length)
    (h0 : self.alpha = 0) (h1 : 1 ≤ data.rows)
    (h2 : data.rows ≤ outputs.rows) :
    self.optimize model start data outputs =
      some (specPerRowDescent (self.mu * self.mu) model data outputs
        (List.flatten (List.replicate self.iters
          (List.range' 1 (data.rows - 1)))) start) := by
  have hvalid : ∀ i ∈ List.flatten (List.replicate self.iters
      (List.range' 1 (data.rows - 1))), i < data.rows ∧ i < outputs.rows := by
    intro i hi
    obtain ⟨l', hl', hil'⟩ := List.mem_flatten.1 hi
    rw [List.eq_of_mem_replicate hl'] at hil'
    exact innerIdx_valid data outputs h1 h2 i hil'
  rw [StochasticGD.optimize, Matrix.rows_select_single data 0 (by omega),
    Matrix.rows_select_single outputs 0 (by omega)]
  simp only [Option.bind_eq_bind, Option.some_bind]
  rw [h0]
  have hw0 : vecSub start
      (vecScale (vecScale
        (model.compute_grad start (specRow data 0) (specRow outputs 0)).2 0)
        self.mu) = start := by
    have hmm : vecScale (vecScale
        (model.compute_grad start (specRow data 0) (specRow outputs 0)).2 0)
        self.mu =
        (model.compute_grad start (specRow data 0)
          (specRow outputs 0)).2.map (fun x => x * 0 * self.mu) := by
      simp [vecScale, List.map_map, Function.comp]
    rw [vecSub, hmm]
    exact zipWith_map_zero _ (fun x => sub_zero x) _
      (fun x => by rw [mul_zero, zero_mul]) start _ (hg start _ _)
  rw [hw0, sgdPasses_eq_foldlM]
  have hlen0 : (vecScale
      (model.compute_grad start (specRow data 0) (specRow outputs 0)).2
      0).length = start.length := by
    rw [vecScale_length, hg]
  obtain ⟨dwF, hF⟩ := foldlM_sgdStep_alpha0 self h0 model data outputs hg
    (List.flatten (List.replicate self.iters
      (List.range' 1 (data.rows - 1)))) hvalid
    (vecScale (model.compute_grad start (specRow data 0)
      (specRow outputs 0)).2 0) start hlen0
  rw [hF]
  rfl

theorem claim_C5_witness :
    (StochasticGD.new 0 (1/3) 2).alpha = 0 ∧
    (StochasticGD.new 0 (1/3) 2).optimize mdlAffine [1] dat2 dat2 =
      some (specPerRowDescent ((1/3) * (1/3)) mdlAffine dat2 dat2
        (List.flatten (List.replicate 2 (List.range' 1 (dat2.rows - 1))))
        [1]) ∧
    (StochasticGD.new 0 (1/3) 2).optimize mdlAffine [1] dat2 dat2 =
      some [-55/81] :=
  ⟨rfl,
   claim_C5 (StochasticGD.new 0 (1/3) 2) mdlAffine [1] dat2 dat2
     (fun v d o => by simp [mdlAffine]) rfl (by decide) (by decide),
   by norm_num [StochasticGD.new, StochasticGD.optimize, sgdPasses, sgdPass,
     sgdStep, dat2, mdlAffine, vecSub, vecAdd, vecScale, Matrix.select_rows,
     Matrix.rows, specRow, List.range', List.mapM.loop]⟩

/-- C6: whenever every gradient returned by the model has the same length as
the parameter vector passed to it, the vector returned by `optimize` — for
`GradientDesc` always, and for `StochasticGD` whenever it returns one — has
the same length as `start`. -/
theorem claim_C6 {D T : Type} (gd : GradientDesc) (mgd : Optimizable D T)
    (s1 : List ℚ) (d1 : D) (o1 : T)
    (hg1 : ∀ (v : List ℚ) (d : D) (o : T),
      ((mgd.compute_grad v d o).2).length = v.length)
    (sgd : StochasticGD) (msgd : Optimizable Matrix Matrix) (s2 : List ℚ)
    (data outputs : Matrix)
    (hg2 : ∀ (v : List ℚ) (d o : Matrix),
      ((msgd.compute_grad v d o).2).length = v.length) :
    (gd.optimize mgd s1 d1 o1).length = s1.length ∧
    ∀ out : List ℚ, sgd.optimize msgd s2 data outputs = some out →
      out.length = s2.length :=
  ⟨by rw [GradientDesc.optimize]
      exact gdLoop_length mgd gd.alpha d1 o1 hg1 gd.iters s1,
   fun out h => sgd_optimize_length sgd msgd s2 data outputs hg2 out h⟩

theorem claim_C6_witness :
    ((GradientDesc.new (1/2) 3).optimize mdlAffine [1, 2] dat2 dat2).length =
      ([1, 2] : List ℚ).length ∧
    (([-827/324, -3997/1944] : List ℚ)).length = ([1, 2] : List ℚ).length := by
  have h := claim_C6 (GradientDesc.new (1/2) 3) mdlAffine [1, 2] dat2 dat2
    (fun v d o => by simp [mdlAffine]) (StochasticGD.new (1/2) (1/3) 2)
    mdlAffine [1, 2] dat2 dat2 (fun v d o => by simp [mdlAffine])
  refine ⟨h.1, h.2 [-827/324, -3997/1944] ?_⟩
  norm_num [StochasticGD.new, StochasticGD.optimize, sgdPasses, sgdPass,
     sgdStep, dat2, mdlAffine, vecSub, vecAdd, vecScale, Matrix.select_rows,
     Matrix.rows, specRow, List.range', List.mapM.loop]

/-- C7: `GradientDesc.optimize` with `iters = 0` returns `start` unchanged
and performs no gradient evaluation. -/
theorem claim_C7 {D T : Type} (self : GradientDesc) (model : Optimizable D T)
    (start : List ℚ) (data : D) (outputs : T) (h : self.iters = 0) :
    self.optimize model start data outputs = start ∧
      (self.optimizeTraced model start data outputs).2 = [] := by
  rw [GradientDesc.optimize, GradientDesc.optimizeTraced, h]
  exact ⟨rfl, rfl⟩

theorem claim_C7_witness :
    (GradientDesc.new (1/2) 0).optimize mdlAffine [3, 4] dat2 dat2 =
      [3, 4] ∧
    ((GradientDesc.new (1/2) 0).optimizeTraced mdlAffine [3, 4] dat2
      dat2).2 = [] :=
  claim_C7 (GradientDesc.new (1/2) 0) mdlAffine [3, 4] dat2 dat2 rfl

/-- C8: on a data set with zero rows, `StochasticGD.optimize`'s bootstrap
unconditionally selects row 0, which is out of bounds (the run aborts);
under the precondition that at least one row exists, the row-0 selection
succeeds. -/
theorem claim_C8 (self : StochasticGD) (model : Optimizable Matrix Matrix)
    (start : List ℚ) (data outputs : Matrix) :
    (data.rows = 0 →
      data.select_rows [0] = none ∧
      self.optimize model start data outputs = none) ∧
    (1 ≤ data.rows → data.select_rows [0] = some (specRow data 0)) := by
  constructor
  · intro h
    have hn : data.select_rows [0] = none :=
      Matrix.rows_select_single_none data 0 (by omega)
    refine ⟨hn, ?_⟩
    rw [StochasticGD.optimize, hn]
    rfl
  · intro h
    exact Matrix.rows_select_single data 0 (by omega)

theorem claim_C8_witness :
    ((Matrix.mk []).select_rows [0] = none ∧
      (StochasticGD.new (1/10) (1/10) 3).optimize mdlAffine [1]
        (Matrix.mk []) (Matrix.mk []) = none) ∧
    dat2.select_rows [0] = some (specRow dat2 0) :=
  ⟨(claim_C8 (StochasticGD.new (1/10) (1/10) 3) mdlAffine [1]
      (Matrix.mk []) (Matrix.mk [])).1 rfl,
   (claim_C8 (StochasticGD.new (1/10) (1/10) 3) mdlAffine [1] dat2
      (Matrix.mk [])).2 (by decide)⟩

/-- C9: the zero-argument default constructor of `GradientDesc` produces
`alpha = 0.3` and `iters = 100` (not the documented 10000), and that of
`StochasticGD` produces `alpha = 0.1`, `mu = 0.1`, `iters = 20`. -/
theorem claim_C9 :
    GradientDesc.default.alpha = 3/10 ∧ GradientDesc.default.iters = 100 ∧
    StochasticGD.default.alpha = 1/10 ∧ StochasticGD.default.mu = 1/10 ∧
    StochasticGD.default.iters = 20 :=
  ⟨rfl, rfl, rfl, rfl, rfl⟩

/-- C10: whenever the per-row loop body never runs — `iters = 0` or a
single-row data set — `StochasticGD.optimize` still performs the bootstrap
and returns `start - mu * (alpha * g0)` with `g0` the gradient at `start`
over row 0 only (so, unlike `GradientDesc`, `iters = 0` does not return
`start` unchanged in general). -/
theorem claim_C10 (self : StochasticGD) (model : Optimizable Matrix Matrix)
    (start : List ℚ) (data outputs : Matrix) (h1 : 1 ≤ data.rows)
    (h2 : 1 ≤ outputs.rows) (hcase : self.iters = 0 ∨ data.rows = 1) :
    self.optimize model start data outputs =
      some (vecSub start (vecScale (vecScale
        (model.compute_grad start (specRow data 0) (specRow outputs 0)).2
        self.alpha) self.mu)) := by
  rw [StochasticGD.optimize, Matrix.rows_select_single data 0 (by omega),
    Matrix.rows_select_single outputs 0 (by omega)]
  simp only [Option.bind_eq_bind, Option.some_bind]
  have hpass : ∀ st : List ℚ × List ℚ,
      sgdPasses self model data outputs self.iters st = some st := by
    intro st
    cases hcase with
    | inl h => rw [h]; rfl
    | inr h =>
        rw [sgdPasses_eq_foldlM, h]
        simp [flatten_replicate_nil]
  rw [hpass]
  rfl

theorem claim_C10_witness :
    1 ≤ dat2.rows ∧
    (StochasticGD.new (1/2) (1/3) 0).optimize mdlAffine [1] dat2 dat2 =
      some (vecSub [1] (vecScale (vecScale
        (mdlAffine.compute_grad [1] (specRow dat2 0) (specRow dat2 0)).2
        (1/2)) (1/3))) ∧
    (StochasticGD.new (1/2) (1/3) 0).optimize mdlAffine [1] dat2 dat2 =
      some [0] ∧
    (StochasticGD.new (1/2) (1/3) 0).optimize mdlAffine [1] dat2 dat2 ≠
      some [1] :=
  ⟨by decide,
   claim_C10 (StochasticGD.new (1/2) (1/3) 0) mdlAffine [1] dat2 dat2
     (by decide) (by decide) (Or.inl rfl),
   by norm_num [StochasticGD.new, StochasticGD.optimize, sgdPasses, sgdPass,
     sgdStep, dat2, mdlAffine, vecSub, vecAdd, vecScale, Matrix.select_rows,
     Matrix.rows, specRow, List.range', List.mapM.loop],
   by norm_num [StochasticGD.new, StochasticGD.optimize, sgdPasses, sgdPass,
     sgdStep, dat2, mdlAffine, vecSub, vecAdd, vecScale, Matrix.select_rows,
     Matrix.rows, specRow, List.range', List.mapM.loop]⟩

end RustyMachine
